import Mathlib

/-!
Shallow embedding of the backtesting engine in `backtesting.py`
(`BacktestingEngine`): trade execution with slippage and transaction
costs, stop-loss / take-profit risk checks, the per-bar backtest loop
with date alignment, and portfolio snapshots.

Conventions of the embedding:
* Python floats are modelled as exact rationals (`ℚ`); share counts and
  order quantities as integers (`ℤ`); trading dates as naturals (`ℕ`).
* The Python dicts `self.positions` and `self.position_entry_prices`
  are modelled as functions into `Option` (`none` = key absent).
* Operations that can raise a `KeyError` in Python return `Option`:
  `none` models the raised exception, `some s` a normal return with
  state `s`.
* A trade record is modelled as the Python dict that
  `execute_trade` appends to `self.trade_history`: an ordered list of
  string keys paired with values.
* Data fetching (`get_historical_data`) and indicator derivation are
  I/O / dataframe plumbing; they are abstracted as the inputs
  `dates : Sym → List ℕ` (the index of each instrument's series) and
  `price : Sym → ℕ → ℚ` (the Close column).  The strategy callable is
  abstracted as a function of the bar date, since the histories and
  prices it receives are determined by the date and the fixed data.
-/

namespace StockAgent

abbrev Sym := String

/-- A value stored in a Python trade-record dict. -/
inductive PyVal where
  | pnum (q : ℚ)
  | pint (n : ℤ)
  | pstr (s : String)
  | pdate (d : ℕ)
deriving DecidableEq

/-- A trade record: the dict appended to `self.trade_history`,
as an ordered association list of keys and values. -/
abbrev TradeRecord := List (String × PyVal)

/-- The mutable state of a `BacktestingEngine` instance
(constructor fields of `BacktestingEngine.__init__`). -/
structure EngineState where
  initial_capital : ℚ
  current_capital : ℚ
  positions : Sym → Option ℤ
  trade_history : List TradeRecord
  transaction_cost : ℚ
  slippage : ℚ
  stop_loss : ℚ
  take_profit : ℚ
  position_entry_prices : Sym → Option ℚ

/-- Model of `BacktestingEngine.__init__` with the given parameters; the
positions dict is initialised with the two ETF symbols at 0 and the
entry-price dict empty. -/
def initEngine (initial_capital transaction_cost slippage stop_loss take_profit : ℚ) :
    EngineState :=
  { initial_capital := initial_capital
    current_capital := initial_capital
    positions := fun sym => if sym = "1579.T" ∨ sym = "1360.T" then some 0 else none
    trade_history := []
    transaction_cost := transaction_cost
    slippage := slippage
    stop_loss := stop_loss
    take_profit := take_profit
    position_entry_prices := fun _ => none }

/-- Model of `BacktestingEngine.__init__` with the default parameters
(1000000, 0.002, 0.001, 0.05, 0.15). -/
def defaultEngine : EngineState :=
  initEngine 1000000 (2/1000) (1/1000) (5/100) (15/100)

/-- The dict literal appended to `trade_history` for an accepted BUY. -/
def buyRecord (date : ℕ) (symbol : Sym) (action : String) (quantity : ℤ)
    (execution_price total_cost transaction_fee slippage_cost : ℚ) : TradeRecord :=
  [("date", PyVal.pdate date), ("symbol", PyVal.pstr symbol),
   ("action", PyVal.pstr action), ("quantity", PyVal.pint quantity),
   ("price", PyVal.pnum execution_price), ("cost", PyVal.pnum total_cost),
   ("transaction_fee", PyVal.pnum transaction_fee),
   ("slippage_cost", PyVal.pnum slippage_cost)]

/-- The dict literal appended to `trade_history` for an accepted SELL. -/
def sellRecord (date : ℕ) (symbol : Sym) (action : String) (quantity : ℤ)
    (execution_price net_revenue transaction_fee slippage_cost : ℚ) : TradeRecord :=
  [("date", PyVal.pdate date), ("symbol", PyVal.pstr symbol),
   ("action", PyVal.pstr action), ("quantity", PyVal.pint quantity),
   ("price", PyVal.pnum execution_price), ("revenue", PyVal.pnum net_revenue),
   ("transaction_fee", PyVal.pnum transaction_fee),
   ("slippage_cost", PyVal.pnum slippage_cost)]

/-- Model of `BacktestingEngine.execute_trade`.  Here `none` models a raised
`KeyError` (symbol absent from the positions dict at the point the
dict is subscripted); `some s` a normal return. -/
def execute_trade (s : EngineState) (symbol : Sym) (action : String)
    (quantity : ℤ) (price : ℚ) (date : ℕ) : Option EngineState :=
  let execution_price :=
    if action = "BUY" then price * (1 + s.slippage) else price * (1 - s.slippage)
  if action = "BUY" then
    let gross_cost := (quantity : ℚ) * execution_price
    let transaction_fee := gross_cost * s.transaction_cost
    let total_cost := gross_cost + transaction_fee
    if total_cost ≤ s.current_capital then
      match s.positions symbol with
      | none => none
      | some pos =>
        some { s with
          current_capital := s.current_capital - total_cost
          positions := fun x => if x = symbol then some (pos + quantity) else s.positions x
          position_entry_prices :=
            -- `symbol not in self.position_entry_prices or
            --  self.positions[symbol] == quantity` (positions already updated)
            if s.position_entry_prices symbol = none ∨ pos + quantity = quantity then
              fun x => if x = symbol then some execution_price
                       else s.position_entry_prices x
            else s.position_entry_prices
          trade_history := s.trade_history ++
            [buyRecord date symbol action quantity execution_price total_cost
              transaction_fee ((quantity : ℚ) * price * s.slippage)] }
    else some s
  else if action = "SELL" then
    match s.positions symbol with
    | none => none
    | some pos =>
      if pos ≥ quantity then
        let gross_revenue := (quantity : ℚ) * execution_price
        let transaction_fee := gross_revenue * s.transaction_cost
        let net_revenue := gross_revenue - transaction_fee
        some { s with
          current_capital := s.current_capital + net_revenue
          positions := fun x => if x = symbol then some (pos - quantity) else s.positions x
          trade_history := s.trade_history ++
            [sellRecord date symbol action quantity execution_price net_revenue
              transaction_fee ((quantity : ℚ) * price * s.slippage)] }
      else some s
  else some s

/-- A trade intent: the signal dicts produced by strategies and by
`check_risk_management` (the engine reads `symbol`, `action`,
`quantity`; `reason` is carried along). -/
structure Signal where
  symbol : Sym
  action : String
  quantity : ℤ
  reason : String
deriving DecidableEq

/-- Model of `BacktestingEngine.check_risk_management`.  The formatted return
percentage inside the Python reason f-string is elided; the reason
prefix distinguishes the two triggers. -/
def check_risk_management (s : EngineState) (symbol : Sym) (current_price : ℚ) :
    List Signal :=
  match s.positions symbol, s.position_entry_prices symbol with
  | some pos, some entry_price =>
    if pos > 0 then
      let current_return := (current_price - entry_price) / entry_price
      if current_return ≤ -s.stop_loss then
        [{ symbol := symbol, action := "SELL", quantity := pos,
           reason := "Stop-loss triggered" }]
      else if current_return ≥ s.take_profit then
        [{ symbol := symbol, action := "SELL", quantity := pos,
           reason := "Take-profit triggered" }]
      else []
    else []
  | _, _ => []

/-- Model of `BacktestingEngine.calculate_portfolio_value`: cash plus the
mark-to-market value of the positions (the positions dict's keys are
the run's symbols). -/
def calculate_portfolio_value (s : EngineState) (symbols : List Sym)
    (prices : Sym → ℚ) : ℚ :=
  s.current_capital +
    (symbols.map (fun sym => ((s.positions sym).getD 0 : ℚ) * prices sym)).sum

/-- A portfolio snapshot: the dict appended to `self.portfolio_values`
at the end of each bar of `run_backtest`. -/
structure Snapshot where
  date : ℕ
  portfolio_value : ℚ
  cash : ℚ
  positions : Sym → Option ℤ

/-- The aligned date universe of `run_backtest`:
`sorted(list(set.intersection(*[set(df.index) for df in data.values()])))`.
The data dict is keyed by the requested symbols in order, so the
intersection ranges over the requested symbols' date sets. -/
def commonDates (symbols : List Sym) (dates : Sym → List ℕ) : List ℕ :=
  match symbols with
  | [] => []
  | s :: rest =>
    (((dates s).filter (fun d => decide (∀ t ∈ rest, d ∈ dates t))).dedup).insertionSort
      (· ≤ ·)

/-- Execute a list of signal dicts in order through `execute_trade`,
looking each symbol's price up in the bar's `current_prices`
(the body of the two signal-execution loops in `run_backtest`). -/
def execute_signals (prices : Sym → ℚ) (date : ℕ) :
    List Signal → EngineState → Option EngineState
  | [], s => some s
  | sig :: rest, s =>
    match execute_trade s sig.symbol sig.action sig.quantity (prices sig.symbol) date with
    | none => none
    | some s' => execute_signals prices date rest s'

/-- One iteration of the per-date loop of `run_backtest`: collect the
risk-management signals against the current state, execute them, then
execute the strategy's signals, then record the bar's snapshot. -/
def stepDate (symbols : List Sym) (price : Sym → ℕ → ℚ)
    (strategy : ℕ → List Signal) (d : ℕ) (s : EngineState) :
    Option (EngineState × Snapshot) :=
  let prices := fun sym => price sym d
  let signals := strategy d
  let risk_signals := (symbols.map (fun sym => check_risk_management s sym (prices sym))).flatten
  match execute_signals prices d risk_signals s with
  | none => none
  | some s1 =>
    match execute_signals prices d signals s1 with
    | none => none
    | some s2 =>
      some (s2,
        { date := d
          portfolio_value := calculate_portfolio_value s2 symbols prices
          cash := s2.current_capital
          positions := s2.positions })

/-- The per-date loop of `run_backtest` over the aligned dates,
accumulating the snapshot list. -/
def runDates (symbols : List Sym) (price : Sym → ℕ → ℚ)
    (strategy : ℕ → List Signal) :
    List ℕ → EngineState → List Snapshot → Option (EngineState × List Snapshot)
  | [], s, snaps => some (s, snaps)
  | d :: rest, s, snaps =>
    match stepDate symbols price strategy d s with
    | none => none
    | some (s', snap) => runDates symbols price strategy rest s' (snaps ++ [snap])

/-- The result dict returned by `run_backtest`. -/
structure BacktestResult where
  initial_capital : ℚ
  final_value : ℚ
  total_return : ℚ
  max_drawdown : ℚ
  trade_history : List TradeRecord
  portfolio_values : List Snapshot
  total_trades : ℕ

/-- The max-drawdown loop at the end of `run_backtest`: fold over the
portfolio values carrying the running peak and the maximum drawdown. -/
def maxDrawdownLoop : List ℚ → ℚ → ℚ → ℚ
  | [], _, max_drawdown => max_drawdown
  | value :: rest, peak, max_drawdown =>
    let peak' := if value > peak then value else peak
    let drawdown := (peak' - value) / peak' * 100
    maxDrawdownLoop rest peak' (if drawdown > max_drawdown then drawdown else max_drawdown)

/-- The tracking-state re-initialisation at the top of
`run_backtest` (fresh capital, zeroed positions for the requested
symbols, cleared logs; the entry-price dict is *not* reset by the
source). -/
def runInit (s0 : EngineState) (symbols : List Sym) : EngineState :=
  { s0 with
    current_capital := s0.initial_capital
    positions := fun sym => if sym ∈ symbols then some 0 else none
    trade_history := [] }

/-- Model of `BacktestingEngine.run_backtest`.  Here `none` models an uncaught
exception: a `KeyError` from a signal naming an unknown symbol, or
the `IndexError` from `self.portfolio_values[-1]` when the aligned
date universe is empty. -/
def run_backtest (s0 : EngineState) (symbols : List Sym) (dates : Sym → List ℕ)
    (price : Sym → ℕ → ℚ) (strategy : ℕ → List Signal) : Option BacktestResult :=
  let common_dates := commonDates symbols dates
  match runDates symbols price strategy common_dates (runInit s0 symbols) [] with
  | none => none
  | some (sFin, snaps) =>
    match snaps.getLast? with
    | none => none  -- IndexError: self.portfolio_values[-1] on an empty list
    | some lastSnap =>
      let final_value := lastSnap.portfolio_value
      let total_return := (final_value - s0.initial_capital) / s0.initial_capital * 100
      let pvs := snaps.map (fun snap => snap.portfolio_value)
      some
        { initial_capital := s0.initial_capital
          final_value := final_value
          total_return := total_return
          max_drawdown := maxDrawdownLoop pvs (pvs.headD 0) 0
          trade_history := sFin.trade_history
          portfolio_values := snaps
          total_trades := sFin.trade_history.length }

/-- Every share count recorded in the positions dict is nonnegative
(the invariant behind the no-short-selling property). -/
def PosInv (s : EngineState) : Prop :=
  ∀ sym p, s.positions sym = some p → 0 ≤ p

/-! ### Example states and data used by witnesses and counterexamples -/

/-- An engine with only 1000 in cash (other parameters default). -/
def lowCashEngine : EngineState := initEngine 1000 (2/1000) (1/1000) (5/100) (15/100)

/-- A default engine holding 10 shares of 1579.T entered at 100. -/
def holdingEngine : EngineState :=
  { defaultEngine with
    positions := fun sym => if sym = "1579.T" then some 10 else none
    position_entry_prices := fun sym => if sym = "1579.T" then some 100 else none }

/-- A default engine holding 100 shares of 1579.T entered at 100,
configured with `stop_loss = 0`. -/
def stopZeroEngine : EngineState :=
  { defaultEngine with
    stop_loss := 0
    positions := fun sym => if sym = "1579.T" then some 100 else none
    position_entry_prices := fun sym => if sym = "1579.T" then some 100 else none }

/-- A default engine holding 100 shares of 1579.T entered at 100,
configured with `take_profit = 0`. -/
def takeProfitZeroEngine : EngineState :=
  { defaultEngine with
    take_profit := 0
    positions := fun sym => if sym = "1579.T" then some 100 else none
    position_entry_prices := fun sym => if sym = "1579.T" then some 100 else none }

/-- Example date series: instrument A trades on days 5, 2, 9 and
instrument B on days 2, 5, 7 (intersection: 2 and 5). -/
def exDates : Sym → List ℕ :=
  fun sym => if sym = "A" then [5, 2, 9] else if sym = "B" then [2, 5, 7] else []

/-- Example price series: every instrument closes at 100 every day. -/
def exPrice : Sym → ℕ → ℚ := fun _ _ => 100

/-- A strategy that emits one oversized SELL intent every bar
(positive quantity; always rejected since nothing is held). -/
def sellStrat : ℕ → List Signal :=
  fun _ => [{ symbol := "A", action := "SELL", quantity := 3, reason := "signal" }]

/-- A placeholder result used as the default of `Option.getD`. -/
def emptyResult : BacktestResult :=
  { initial_capital := 0, final_value := 0, total_return := 0, max_drawdown := 0
    trade_history := [], portfolio_values := [], total_trades := 0 }

/-- The concrete run of `sellStrat` on the example data. -/
def exResultSell : BacktestResult :=
  (run_backtest defaultEngine ["A", "B"] exDates exPrice sellStrat).getD emptyResult

/-- The concrete run with no strategy signals on the example data. -/
def exResultNoTrades : BacktestResult :=
  (run_backtest defaultEngine ["A", "B"] exDates exPrice (fun _ => [])).getD emptyResult

/-! ### Case analysis of `execute_trade` -/

/-- An infeasible BUY (total cost above available cash) is a silent
no-op returning the state unchanged. -/
theorem execute_trade_buy_reject (s : EngineState) (symbol : Sym) (q : ℤ) (price : ℚ)
    (date : ℕ)
    (hgt : s.current_capital <
      (q : ℚ) * (price * (1 + s.slippage)) + (q : ℚ) * (price * (1 + s.slippage)) * s.transaction_cost) :
    execute_trade s symbol "BUY" q price date = some s := by
  unfold execute_trade
  simp only [reduceIte, if_neg (not_le.mpr hgt)]

/-- A feasible BUY: the exact state produced by the accept branch. -/
theorem execute_trade_buy_accept (s : EngineState) (symbol : Sym) (q : ℤ) (price : ℚ)
    (date : ℕ) (pos : ℤ) (hpos : s.positions symbol = some pos)
    (hle : (q : ℚ) * (price * (1 + s.slippage)) + (q : ℚ) * (price * (1 + s.slippage)) * s.transaction_cost ≤ s.current_capital) :
    execute_trade s symbol "BUY" q price date =
      some { s with
        current_capital := s.current_capital -
          ((q : ℚ) * (price * (1 + s.slippage)) +
            (q : ℚ) * (price * (1 + s.slippage)) * s.transaction_cost)
        positions := fun x => if x = symbol then some (pos + q) else s.positions x
        position_entry_prices :=
          if s.position_entry_prices symbol = none ∨ pos + q = q then
            fun x => if x = symbol then some (price * (1 + s.slippage))
                     else s.position_entry_prices x
          else s.position_entry_prices
        trade_history := s.trade_history ++
          [buyRecord date symbol "BUY" q (price * (1 + s.slippage))
            ((q : ℚ) * (price * (1 + s.slippage)) +
              (q : ℚ) * (price * (1 + s.slippage)) * s.transaction_cost)
            ((q : ℚ) * (price * (1 + s.slippage)) * s.transaction_cost)
            ((q : ℚ) * price * s.slippage)] } := by
  unfold execute_trade
  simp only [reduceIte, if_pos hle, hpos]

/-- A feasible SELL: the exact state produced by the accept branch. -/
theorem execute_trade_sell_accept (s : EngineState) (symbol : Sym) (q : ℤ) (price : ℚ)
    (date : ℕ) (pos : ℤ) (hpos : s.positions symbol = some pos) (hge : q ≤ pos) :
    execute_trade s symbol "SELL" q price date =
      some { s with
        current_capital := s.current_capital +
          ((q : ℚ) * (price * (1 - s.slippage)) -
            (q : ℚ) * (price * (1 - s.slippage)) * s.transaction_cost)
        positions := fun x => if x = symbol then some (pos - q) else s.positions x
        trade_history := s.trade_history ++
          [sellRecord date symbol "SELL" q (price * (1 - s.slippage))
            ((q : ℚ) * (price * (1 - s.slippage)) -
              (q : ℚ) * (price * (1 - s.slippage)) * s.transaction_cost)
            ((q : ℚ) * (price * (1 - s.slippage)) * s.transaction_cost)
            ((q : ℚ) * price * s.slippage)] } := by
  unfold execute_trade
  simp only [String.reduceEq, reduceIte, hpos, if_pos hge]

/-- An oversized SELL (quantity above the held position) is a silent
no-op returning the state unchanged. -/
theorem execute_trade_sell_reject (s : EngineState) (symbol : Sym) (q : ℤ) (price : ℚ)
    (date : ℕ) (pos : ℤ) (hpos : s.positions symbol = some pos) (hlt : pos < q) :
    execute_trade s symbol "SELL" q price date = some s := by
  unfold execute_trade
  simp only [String.reduceEq, reduceIte, hpos, if_neg (not_le.mpr hlt)]

/-- Any action other than BUY and SELL falls through both branches. -/
theorem execute_trade_other (s : EngineState) (symbol : Sym) (action : String) (q : ℤ)
    (price : ℚ) (date : ℕ) (h1 : action ≠ "BUY") (h2 : action ≠ "SELL") :
    execute_trade s symbol action q price date = some s := by
  unfold execute_trade
  simp [h1, h2]

/-- A BUY whose cost check passes still raises a `KeyError` when the
symbol is absent from the positions dict. -/
theorem execute_trade_buy_none (s : EngineState) (symbol : Sym) (q : ℤ) (price : ℚ)
    (date : ℕ) (hnone : s.positions symbol = none)
    (hle : (q : ℚ) * (price * (1 + s.slippage)) + (q : ℚ) * (price * (1 + s.slippage)) * s.transaction_cost ≤ s.current_capital) :
    execute_trade s symbol "BUY" q price date = none := by
  unfold execute_trade
  simp only [reduceIte, if_pos hle, hnone]

/-- A SELL raises a `KeyError` when the symbol is absent from the
positions dict. -/
theorem execute_trade_sell_none (s : EngineState) (symbol : Sym) (q : ℤ) (price : ℚ)
    (date : ℕ) (hnone : s.positions symbol = none) :
    execute_trade s symbol "SELL" q price date = none := by
  unfold execute_trade
  simp only [String.reduceEq, reduceIte, hnone]

/-! ### The nonnegative-positions invariant -/

/-- The function `execute_trade` preserves nonnegative positions for positive
order quantities: a BUY only adds shares, and a SELL is either
rejected or bounded by the held position. -/
theorem execute_trade_posInv (s s' : EngineState) (symbol : Sym) (action : String)
    (q : ℤ) (price : ℚ) (date : ℕ) (hq : 0 < q) (hinv : PosInv s)
    (h : execute_trade s symbol action q price date = some s') : PosInv s' := by
  by_cases hb : action = "BUY"
  · subst hb
    rcases le_or_lt ((q : ℚ) * (price * (1 + s.slippage)) +
        (q : ℚ) * (price * (1 + s.slippage)) * s.transaction_cost)
        s.current_capital with hle | hgt
    · rcases hpos : s.positions symbol with _ | pos
      · rw [execute_trade_buy_none s symbol q price date hpos hle] at h
        exact absurd h (by simp)
      · rw [execute_trade_buy_accept s symbol q price date pos hpos hle] at h
        cases h
        intro sym p hp
        dsimp only at hp
        by_cases hx : sym = symbol
        · rw [if_pos hx] at hp
          cases hp
          have := hinv symbol pos hpos
          omega
        · rw [if_neg hx] at hp
          exact hinv sym p hp
    · rw [execute_trade_buy_reject s symbol q price date hgt] at h
      cases h
      exact hinv
  · by_cases hs : action = "SELL"
    · subst hs
      rcases hpos : s.positions symbol with _ | pos
      · rw [execute_trade_sell_none s symbol q price date hpos] at h
        exact absurd h (by simp)
      · rcases le_or_lt q pos with hge | hlt
        · rw [execute_trade_sell_accept s symbol q price date pos hpos hge] at h
          cases h
          intro sym p hp
          dsimp only at hp
          by_cases hx : sym = symbol
          · rw [if_pos hx] at hp
            cases hp
            omega
          · rw [if_neg hx] at hp
            exact hinv sym p hp
        · rw [execute_trade_sell_reject s symbol q price date pos hpos hlt] at h
          cases h
          exact hinv
    · rw [execute_trade_other s symbol action q price date hb hs] at h
      cases h
      exact hinv

/-- The function `execute_signals` preserves nonnegative positions when every
signal in the list has a positive quantity. -/
theorem execute_signals_posInv (prices : Sym → ℚ) (date : ℕ) :
    ∀ (sigs : List Signal) (s s' : EngineState),
      (∀ sig ∈ sigs, 0 < sig.quantity) → PosInv s →
      execute_signals prices date sigs s = some s' → PosInv s'
  | [], s, s', _, hinv, h => by
    cases h
    exact hinv
  | sig :: rest, s, s', hall, hinv, h => by
    rw [execute_signals] at h
    rcases hexec : execute_trade s sig.symbol sig.action sig.quantity
        (prices sig.symbol) date with _ | s1
    · rw [hexec] at h
      exact absurd h (by simp)
    · rw [hexec] at h
      exact execute_signals_posInv prices date rest s1 s'
        (fun g hg => hall g (List.mem_cons_of_mem _ hg))
        (execute_trade_posInv s s1 sig.symbol sig.action sig.quantity
          (prices sig.symbol) date (hall sig (List.mem_cons_self _ _)) hinv hexec) h

/-- Every signal emitted by `check_risk_management` liquidates a
position that the guard requires to be strictly positive. -/
theorem check_risk_quantity_pos (s : EngineState) (sym : Sym) (price : ℚ)
    (sig : Signal) (h : sig ∈ check_risk_management s sym price) : 0 < sig.quantity := by
  unfold check_risk_management at h
  rcases hp : s.positions sym with _ | pos <;> rw [hp] at h
  · simp at h
  · rcases he : s.position_entry_prices sym with _ | ep <;> rw [he] at h
    · simp at h
    · dsimp only at h
      split_ifs at h with h1 h2 h3 <;> simp at h
      · subst h
        exact h1
      · subst h
        exact h1

/-! ### Claims -/

/-- C1: a BUY whose total cost `quantity × execution_price × (1 + fee)`
exceeds current cash and a SELL whose quantity exceeds the held
position are rejected silently (state returned unchanged, no record,
no exception); every other BUY/SELL — including a BUY whose total cost
exactly equals available cash — is accepted and appends exactly one
trade record. -/
theorem C1_order_feasibility (s : EngineState) (symbol : Sym) (quantity : ℤ)
    (price : ℚ) (date : ℕ) (pos : ℤ) (hpos : s.positions symbol = some pos) :
    ((quantity : ℚ) * (price * (1 + s.slippage)) * (1 + s.transaction_cost) > s.current_capital →
      execute_trade s symbol "BUY" quantity price date = some s) ∧
    (pos < quantity →
      execute_trade s symbol "SELL" quantity price date = some s) ∧
    ((quantity : ℚ) * (price * (1 + s.slippage)) * (1 + s.transaction_cost) ≤ s.current_capital →
      ∃ s', execute_trade s symbol "BUY" quantity price date = some s' ∧
        s'.trade_history.length = s.trade_history.length + 1) ∧
    (quantity ≤ pos →
      ∃ s', execute_trade s symbol "SELL" quantity price date = some s' ∧
        s'.trade_history.length = s.trade_history.length + 1) := by
  have key : (quantity : ℚ) * (price * (1 + s.slippage)) +
      (quantity : ℚ) * (price * (1 + s.slippage)) * s.transaction_cost =
      (quantity : ℚ) * (price * (1 + s.slippage)) * (1 + s.transaction_cost) := by ring
  refine ⟨?_, ?_, ?_, ?_⟩
  · intro hgt
    exact execute_trade_buy_reject s symbol quantity price date (by rw [key]; exact hgt)
  · intro hlt
    exact execute_trade_sell_reject s symbol quantity price date pos hpos hlt
  · intro hle
    refine ⟨_, execute_trade_buy_accept s symbol quantity price date pos hpos
      (by rw [key]; exact hle), ?_⟩
    simp
  · intro hge
    refine ⟨_, execute_trade_sell_accept s symbol quantity price date pos hpos hge, ?_⟩
    simp

/-- Witness for C1: with 1000 in cash, a BUY of 10 shares at 100 costs
1003.002 and is silently rejected with the state unchanged. -/
theorem C1_order_feasibility_witness :
    lowCashEngine.positions "1579.T" = some 0 ∧
    execute_trade lowCashEngine "1579.T" "BUY" 10 100 0 = some lowCashEngine :=
  ⟨rfl,
   (C1_order_feasibility lowCashEngine "1579.T" 10 100 0 0 rfl).1
     (by norm_num [lowCashEngine, initEngine])⟩

/-- C2: an accepted BUY changes cash by exactly
`− quantity × price × (1+slippage) × (1+transaction_cost)` and an
accepted SELL by exactly
`+ quantity × price × (1−slippage) × (1−transaction_cost)` (acceptance
is witnessed by the appended trade record). -/
theorem C2_capital_conservation (s : EngineState) (symbol : Sym) (quantity : ℤ)
    (price : ℚ) (date : ℕ) (pos : ℤ) (hpos : s.positions symbol = some pos) :
    ((quantity : ℚ) * (price * (1 + s.slippage)) * (1 + s.transaction_cost) ≤ s.current_capital →
      ∀ s', execute_trade s symbol "BUY" quantity price date = some s' →
      s'.current_capital = s.current_capital -
        (quantity : ℚ) * price * (1 + s.slippage) * (1 + s.transaction_cost)) ∧
    (quantity ≤ pos →
      ∀ s', execute_trade s symbol "SELL" quantity price date = some s' →
      s'.current_capital = s.current_capital +
        (quantity : ℚ) * price * (1 - s.slippage) * (1 - s.transaction_cost)) := by
  constructor
  · intro hle s' h
    rw [execute_trade_buy_accept s symbol quantity price date pos hpos
      (by have key : (quantity : ℚ) * (price * (1 + s.slippage)) +
            (quantity : ℚ) * (price * (1 + s.slippage)) * s.transaction_cost =
            (quantity : ℚ) * (price * (1 + s.slippage)) * (1 + s.transaction_cost) := by ring
          rw [key]; exact hle)] at h
    cases h
    show s.current_capital - _ = _
    ring
  · intro hge s' h
    rw [execute_trade_sell_accept s symbol quantity price date pos hpos hge] at h
    cases h
    show s.current_capital + _ = _
    ring

/-- Witness for C2: selling the 10 held shares at reference price 110
credits exactly `10 × 110 × 0.999 × 0.998 = 1096.70178`. -/
theorem C2_capital_conservation_witness :
    holdingEngine.positions "1579.T" = some 10 ∧
    ((execute_trade holdingEngine "1579.T" "SELL" 10 110 0).getD holdingEngine).current_capital =
      holdingEngine.current_capital + (10 : ℚ) * 110 * (1 - holdingEngine.slippage) *
        (1 - holdingEngine.transaction_cost) :=
  ⟨rfl,
   (C2_capital_conservation holdingEngine "1579.T" 10 110 0 10 rfl).2
     (by norm_num)
     ((execute_trade holdingEngine "1579.T" "SELL" 10 110 0).getD holdingEngine)
     rfl⟩

/-- C9: an accepted BUY sets the remembered entry price to the
slippage-adjusted execution price exactly when the pre-trade position
was zero; a BUY into a positive position leaves the entry-price dict
unchanged (no volume-weighted averaging), and a SELL never changes it
(so the entry price persists until the position returns to zero).
The hypothesis `hreach` (a nonzero position has a recorded entry
price) holds in every state the engine reaches, since positions only
become nonzero through accepted BUYs, which record an entry price. -/
theorem C9_entry_price_semantics (s : EngineState) (symbol : Sym) (quantity : ℤ)
    (price : ℚ) (date : ℕ) (pos : ℤ) (hpos : s.positions symbol = some pos)
    (hreach : pos ≠ 0 → (s.position_entry_prices symbol).isSome) :
    ((quantity : ℚ) * (price * (1 + s.slippage)) * (1 + s.transaction_cost) ≤ s.current_capital →
      ∀ s', execute_trade s symbol "BUY" quantity price date = some s' →
      (pos = 0 → s'.position_entry_prices symbol = some (price * (1 + s.slippage))) ∧
      (pos ≠ 0 → s'.position_entry_prices = s.position_entry_prices)) ∧
    (∀ s', execute_trade s symbol "SELL" quantity price date = some s' →
      s'.position_entry_prices = s.position_entry_prices) := by
  constructor
  · intro hle s' h
    rw [execute_trade_buy_accept s symbol quantity price date pos hpos
      (by have key : (quantity : ℚ) * (price * (1 + s.slippage)) +
            (quantity : ℚ) * (price * (1 + s.slippage)) * s.transaction_cost =
            (quantity : ℚ) * (price * (1 + s.slippage)) * (1 + s.transaction_cost) := by ring
          rw [key]; exact hle)] at h
    cases h
    constructor
    · intro hzero
      subst hzero
      simp
    · intro hnz
      show (if _ ∨ _ then _ else _) = _
      rw [if_neg]
      push_neg
      constructor
      · intro hnone
        rw [hnone] at hreach
        exact absurd (hreach hnz) (by simp)
      · omega
  · intro s' h
    rcases le_or_lt quantity pos with hge | hlt
    · rw [execute_trade_sell_accept s symbol quantity price date pos hpos hge] at h
      cases h
      rfl
    · rw [execute_trade_sell_reject s symbol quantity price date pos hpos hlt] at h
      cases h
      rfl

/-- Witness for C9: a fresh BUY of 5 shares at 100 on the default
engine (position zero, no entry price) records entry price 100.1. -/
theorem C9_entry_price_semantics_witness :
    defaultEngine.positions "1579.T" = some 0 ∧
    ((execute_trade defaultEngine "1579.T" "BUY" 5 100 0).getD defaultEngine).position_entry_prices
        "1579.T" = some (100 * (1 + defaultEngine.slippage)) :=
  ⟨rfl,
   (((C9_entry_price_semantics defaultEngine "1579.T" 5 100 0 0 rfl
       (fun h => absurd rfl h)).1
     (by norm_num [defaultEngine, initEngine])
     ((execute_trade defaultEngine "1579.T" "BUY" 5 100 0).getD defaultEngine)
     (by rw [execute_trade_buy_accept defaultEngine "1579.T" 5 100 0 0 rfl
         (by norm_num [defaultEngine, initEngine])]
         rfl)).1 rfl)⟩

/-- C10: an action string other than BUY and SELL makes
`execute_trade` a complete no-op: the state is returned unchanged and
nothing is raised. -/
theorem C10_unknown_action_noop (s : EngineState) (symbol : Sym) (action : String)
    (quantity : ℤ) (price : ℚ) (date : ℕ)
    (h1 : action ≠ "BUY") (h2 : action ≠ "SELL") :
    execute_trade s symbol action quantity price date = some s :=
  execute_trade_other s symbol action quantity price date h1 h2

/-- Witness for C10: a HOLD action leaves the default engine
untouched. -/
theorem C10_unknown_action_noop_witness :
    ("HOLD" ≠ "BUY" ∧ "HOLD" ≠ "SELL") ∧
    execute_trade defaultEngine "1579.T" "HOLD" 7 100 0 = some defaultEngine :=
  ⟨⟨by decide, by decide⟩,
   C10_unknown_action_noop defaultEngine "1579.T" "HOLD" 7 100 0 (by decide) (by decide)⟩

/-! ### Run-level lemmas and claims over `run_backtest` -/

/-- The function `stepDate` preserves nonnegative positions (risk-management
signals always carry a positive quantity; strategy signals do by
hypothesis), and the recorded snapshot copies the resulting
positions. -/
theorem stepDate_posInv (symbols : List Sym) (price : Sym → ℕ → ℚ)
    (strategy : ℕ → List Signal) (d : ℕ) (s s' : EngineState) (snap : Snapshot)
    (hstrat : ∀ sig ∈ strategy d, 0 < sig.quantity) (hinv : PosInv s)
    (h : stepDate symbols price strategy d s = some (s', snap)) :
    PosInv s' ∧ snap.positions = s'.positions := by
  unfold stepDate at h
  dsimp only at h
  rcases hr : execute_signals (fun sym => price sym d) d
      ((symbols.map (fun sym => check_risk_management s sym (price sym d))).flatten) s
    with _ | s1 <;> rw [hr] at h <;> dsimp only at h
  · exact absurd h (by simp)
  · have hinv1 : PosInv s1 := by
      refine execute_signals_posInv _ _ _ s s1 ?_ hinv hr
      intro sig hsig
      rcases List.mem_flatten.mp hsig with ⟨l, hl, hsl⟩
      rcases List.mem_map.mp hl with ⟨sym, _, rfl⟩
      exact check_risk_quantity_pos s sym (price sym d) sig hsl
    rcases hs : execute_signals (fun sym => price sym d) d (strategy d) s1
      with _ | s2 <;> rw [hs] at h <;> dsimp only at h
    · exact absurd h (by simp)
    · cases h
      exact ⟨execute_signals_posInv _ _ _ s1 _ hstrat hinv1 hs, rfl⟩

/-- The function `runDates` preserves nonnegative positions into every recorded
snapshot. -/
theorem runDates_posInv (symbols : List Sym) (price : Sym → ℕ → ℚ)
    (strategy : ℕ → List Signal) :
    ∀ (ds : List ℕ) (s : EngineState) (acc : List Snapshot) (s' : EngineState)
      (snaps : List Snapshot),
      (∀ d sig, sig ∈ strategy d → 0 < sig.quantity) → PosInv s →
      (∀ snap ∈ acc, ∀ sym p, snap.positions sym = some p → 0 ≤ p) →
      runDates symbols price strategy ds s acc = some (s', snaps) →
      ∀ snap ∈ snaps, ∀ sym p, snap.positions sym = some p → 0 ≤ p
  | [], s, acc, s', snaps, _, _, hacc, h => by
    cases h
    exact hacc
  | d :: rest, s, acc, s', snaps, hstrat, hinv, hacc, h => by
    rw [runDates] at h
    rcases hstep : stepDate symbols price strategy d s with _ | p <;> rw [hstep] at h <;>
      dsimp only at h
    · exact absurd h (by simp)
    · rcases p with ⟨s1, snap⟩
      have hs1 := stepDate_posInv symbols price strategy d s s1 snap (hstrat d) hinv hstep
      refine runDates_posInv symbols price strategy rest s1 (acc ++ [snap]) s' snaps
        hstrat hs1.1 ?_ h
      intro g hg
      rcases List.mem_append.mp hg with hg | hg
      · exact hacc g hg
      · rcases List.mem_singleton.mp hg with rfl
        intro sym p hp
        rw [hs1.2] at hp
        exact hs1.1 sym p hp

/-- The function `runInit` produces only zero share counts. -/
theorem runInit_posInv (s0 : EngineState) (symbols : List Sym) :
    PosInv (runInit s0 symbols) := by
  intro sym p hp
  dsimp [runInit] at hp
  split_ifs at hp
  cases hp
  exact le_refl 0

/-- A successful `run_backtest` decomposes into a successful
`runDates` fold producing exactly the recorded snapshot sequence and
final trade history. -/
theorem run_backtest_some (s0 : EngineState) (symbols : List Sym)
    (dates : Sym → List ℕ) (price : Sym → ℕ → ℚ) (strategy : ℕ → List Signal)
    (r : BacktestResult)
    (h : run_backtest s0 symbols dates price strategy = some r) :
    ∃ sFin, runDates symbols price strategy (commonDates symbols dates)
        (runInit s0 symbols) [] = some (sFin, r.portfolio_values) ∧
      r.trade_history = sFin.trade_history := by
  unfold run_backtest at h
  dsimp only at h
  rcases hrd : runDates symbols price strategy (commonDates symbols dates)
      (runInit s0 symbols) [] with _ | pr <;> rw [hrd] at h <;> dsimp only at h
  · exact absurd h (by simp)
  · rcases pr with ⟨sFin, snaps⟩
    dsimp only at h
    rcases hlast : snaps.getLast? with _ | lastSnap <;> rw [hlast] at h <;> dsimp only at h
    · exact absurd h (by simp)
    · cases h
      exact ⟨sFin, by rfl, by rfl⟩

/-- C3: in a run whose strategy only emits intents with positive
quantities (risk-management intents are positive by construction),
every recorded snapshot carries a nonnegative share count for every
instrument. -/
theorem C3_no_negative_positions (s0 : EngineState) (symbols : List Sym)
    (dates : Sym → List ℕ) (price : Sym → ℕ → ℚ) (strategy : ℕ → List Signal)
    (hq : ∀ d sig, sig ∈ strategy d → 0 < sig.quantity) :
    ∀ r, run_backtest s0 symbols dates price strategy = some r →
      ∀ snap ∈ r.portfolio_values, ∀ sym p, snap.positions sym = some p → 0 ≤ p := by
  intro r h
  obtain ⟨sFin, hrd, _⟩ := run_backtest_some s0 symbols dates price strategy r h
  exact runDates_posInv symbols price strategy (commonDates symbols dates)
    (runInit s0 symbols) [] sFin r.portfolio_values hq
    (runInit_posInv s0 symbols) (by simp) hrd

/-- Witness for C3: running the oversized-SELL strategy (positive
quantities throughout) on the example data records only nonnegative
positions. -/
theorem C3_no_negative_positions_witness :
    (∀ d sig, sig ∈ sellStrat d → 0 < sig.quantity) ∧
    (∀ snap ∈ exResultSell.portfolio_values, ∀ sym p,
      snap.positions sym = some p → 0 ≤ p) :=
  ⟨fun d sig hsig => by
      rcases List.mem_singleton.mp hsig with rfl
      exact Int.zero_lt_one.trans_le (by norm_num),
   C3_no_negative_positions defaultEngine ["A", "B"] exDates exPrice sellStrat
     (fun d sig hsig => by
       rcases List.mem_singleton.mp hsig with rfl
       exact Int.zero_lt_one.trans_le (by norm_num))
     exResultSell (by rw [exResultSell]; rfl)⟩

/-- The snapshot recorded by `stepDate` carries the bar's date. -/
theorem stepDate_date (symbols : List Sym) (price : Sym → ℕ → ℚ)
    (strategy : ℕ → List Signal) (d : ℕ) (s s' : EngineState) (snap : Snapshot)
    (h : stepDate symbols price strategy d s = some (s', snap)) : snap.date = d := by
  unfold stepDate at h
  dsimp only at h
  rcases hr : execute_signals (fun sym => price sym d) d
      ((symbols.map (fun sym => check_risk_management s sym (price sym d))).flatten) s
    with _ | s1 <;> rw [hr] at h <;> dsimp only at h
  · exact absurd h (by simp)
  · rcases hs : execute_signals (fun sym => price sym d) d (strategy d) s1
      with _ | s2 <;> rw [hs] at h <;> dsimp only at h
    · exact absurd h (by simp)
    · cases h
      rfl

/-- The dates of the snapshots produced by `runDates` are the
accumulator's dates followed by the processed dates, in order. -/
theorem runDates_dates (symbols : List Sym) (price : Sym → ℕ → ℚ)
    (strategy : ℕ → List Signal) :
    ∀ (ds : List ℕ) (s : EngineState) (acc : List Snapshot) (s' : EngineState)
      (snaps : List Snapshot),
      runDates symbols price strategy ds s acc = some (s', snaps) →
      snaps.map Snapshot.date = acc.map Snapshot.date ++ ds
  | [], s, acc, s', snaps, h => by
    cases h
    simp
  | d :: rest, s, acc, s', snaps, h => by
    rw [runDates] at h
    rcases hstep : stepDate symbols price strategy d s with _ | p <;> rw [hstep] at h <;>
      dsimp only at h
    · exact absurd h (by simp)
    · rcases p with ⟨s1, snap⟩
      have hrec := runDates_dates symbols price strategy rest s1 (acc ++ [snap]) s' snaps h
      rw [hrec, List.map_append]
      simp [stepDate_date symbols price strategy d s s1 snap hstep]

/-- The aligned date universe is strictly ascending (the Python
source sorts the deduplicated intersection). -/
theorem commonDates_sorted (symbols : List Sym) (dates : Sym → List ℕ) :
    List.Sorted (· < ·) (commonDates symbols dates) := by
  cases symbols with
  | nil => simp [commonDates]
  | cons s rest =>
    unfold commonDates
    refine List.Sorted.lt_of_le (List.sorted_insertionSort _ _) ?_
    exact ((List.perm_insertionSort _ _).nodup_iff).mpr (List.nodup_dedup _)

/-- Membership in the aligned date universe is exactly membership in
every requested instrument's date set (an intersection, not a
union). -/
theorem mem_commonDates (sym0 : Sym) (rest : List Sym) (dates : Sym → List ℕ) (d : ℕ) :
    d ∈ commonDates (sym0 :: rest) dates ↔ ∀ sym ∈ sym0 :: rest, d ∈ dates sym := by
  unfold commonDates
  rw [List.mem_insertionSort, List.mem_dedup, List.mem_filter]
  simp [List.forall_mem_cons]

/-- C8: the dates of the recorded snapshots are exactly the sorted
intersection of the requested instruments' available date sets, in
strictly ascending order. -/
theorem C8_date_alignment (s0 : EngineState) (sym0 : Sym) (rest : List Sym)
    (dates : Sym → List ℕ) (price : Sym → ℕ → ℚ) (strategy : ℕ → List Signal) :
    ∀ r, run_backtest s0 (sym0 :: rest) dates price strategy = some r →
      r.portfolio_values.map Snapshot.date = commonDates (sym0 :: rest) dates ∧
      List.Sorted (· < ·) (r.portfolio_values.map Snapshot.date) ∧
      ∀ d, d ∈ r.portfolio_values.map Snapshot.date ↔
        ∀ sym ∈ sym0 :: rest, d ∈ dates sym := by
  intro r h
  obtain ⟨sFin, hrd, _⟩ := run_backtest_some s0 (sym0 :: rest) dates price strategy r h
  have hmap : r.portfolio_values.map Snapshot.date = commonDates (sym0 :: rest) dates := by
    simpa using runDates_dates (sym0 :: rest) price strategy
      (commonDates (sym0 :: rest) dates) (runInit s0 (sym0 :: rest)) [] sFin
      r.portfolio_values hrd
  refine ⟨hmap, ?_, ?_⟩
  · rw [hmap]
    exact commonDates_sorted _ _
  · intro d
    rw [hmap]
    exact mem_commonDates sym0 rest dates d

/-- Witness for C8: the no-signal run on the example data records
snapshots exactly on the aligned dates, in ascending order. -/
theorem C8_date_alignment_witness :
    exResultNoTrades.portfolio_values.map Snapshot.date = commonDates ["A", "B"] exDates ∧
    List.Sorted (· < ·) (exResultNoTrades.portfolio_values.map Snapshot.date) :=
  have h := C8_date_alignment defaultEngine "A" ["B"] exDates exPrice (fun _ => [])
    exResultNoTrades (by rw [exResultNoTrades]; rfl)
  ⟨h.1, h.2.1⟩

/-- C4: contrary to the claim, the record appended for an accepted
SELL carries only the keys date, symbol, action, quantity, price,
revenue, transaction_fee and slippage_cost — no realized-P&L value is
computed or attached (selling the 10 shares entered at 100 for 110
would realize a profit, but the record has no field for it). -/
theorem C4_sell_record_has_no_pnl_field :
    (execute_trade holdingEngine "1579.T" "SELL" 10 110 0).map
        (fun s => s.trade_history.map (fun r => r.map Prod.fst)) =
      some [["date", "symbol", "action", "quantity", "price", "revenue",
             "transaction_fee", "slippage_cost"]] := by
  rw [execute_trade_sell_accept holdingEngine "1579.T" 10 110 0 10 rfl (by norm_num)]
  simp [sellRecord, holdingEngine, defaultEngine, initEngine]

/-- C5: contrary to the claim, a zero threshold does not disable the
corresponding check.  With `stop_loss = 0`, a position entered at 100
produces a stop-loss SELL at price 99 and even at price 100 (return
exactly 0); with `take_profit = 0`, it produces a take-profit SELL at
price 101. -/
theorem C5_zero_threshold_still_triggers :
    check_risk_management stopZeroEngine "1579.T" 99 =
      [{ symbol := "1579.T", action := "SELL", quantity := 100,
         reason := "Stop-loss triggered" }] ∧
    check_risk_management stopZeroEngine "1579.T" 100 =
      [{ symbol := "1579.T", action := "SELL", quantity := 100,
         reason := "Stop-loss triggered" }] ∧
    check_risk_management takeProfitZeroEngine "1579.T" 101 =
      [{ symbol := "1579.T", action := "SELL", quantity := 100,
         reason := "Take-profit triggered" }] := by
  refine ⟨?_, ?_, ?_⟩ <;>
    · simp only [check_risk_management, stopZeroEngine, takeProfitZeroEngine,
        defaultEngine, initEngine]
      norm_num

/-- C6: contrary to the claim, `run_backtest` does not return an empty
result when the aligned date universe is empty: with instrument B's
series empty the loop records no snapshots and the final-value
computation subscripts the empty snapshot list
(`self.portfolio_values[-1]`), raising an `IndexError` (modelled as
`none`). -/
theorem C6_empty_universe_raises :
    run_backtest defaultEngine ["A", "B"]
      (fun sym => if sym = "A" then [1] else [])
      (fun _ _ => 100) (fun _ => []) = none := by
  rfl

/-- C7: contrary to the claim, a non-positive quantity is not rejected
with an error: a BUY of quantity −5 at price 100 is executed as a
trade — it appends a record, credits cash with the negative cost
(+501.501), and drives the position to −5. -/
theorem C7_nonpositive_quantity_executed :
    (execute_trade defaultEngine "1579.T" "BUY" (-5) 100 0).map
        (fun s => (s.trade_history.length, s.current_capital, s.positions "1579.T")) =
      some (1, 1000501501/1000, some (-5)) ∧
    (execute_trade defaultEngine "1579.T" "BUY" 0 100 0).map
        (fun s => s.trade_history.length) = some 1 := by
  constructor
  · rw [execute_trade_buy_accept defaultEngine "1579.T" (-5) 100 0 0 rfl
      (by norm_num [defaultEngine, initEngine])]
    simp [defaultEngine, initEngine]
    norm_num
  · rw [execute_trade_buy_accept defaultEngine "1579.T" 0 100 0 0 rfl
      (by norm_num [defaultEngine, initEngine])]
    simp [defaultEngine, initEngine]

end StockAgent
